import Mathlib

/-!
Verification of the incremental crawl-and-resume auction-scraper pipeline
(`auction_scraper.py`, the Menzies pipeline, with the corresponding stage of
`deutscherandhackett_scraper.py` where a claim cites it).

The HTML-retrieval and HTML-to-field extraction collaborators are external to
the core (spec section 1 and 6): pages are therefore modelled as the structured
extraction signals the core consumes (one field per selector the code reads),
and the page fetcher is a function from URL to an optional page, `none`
standing for a fetch failure.  All string processing the core itself performs
(prefix test, comma stripping, label removal, integer parsing, thousands
formatting) is implemented over character lists by structural recursion so
that every definition evaluates inside the kernel.
-/

/-- One lot record as built by the scrapers (a Python dict with these keys).
`auctionUrl` defaults to the empty string, modelling the key being absent
until the merge step stamps it. -/
structure MenziesLot where
  artist : String
  title : String
  medium : String
  size : String
  price : String
  url : String
  auctionUrl : String := ""
  deriving DecidableEq

/-- One auction record of the Menzies pipeline (`url` is the identity key). -/
structure AuctionRecord where
  url : String
  title : String
  year : String
  date : String
  sale_total : String
  lots : List MenziesLot
  deriving DecidableEq

/-- Extraction signals of one `div.pageCatalogue` entry on the listing page
(lines 49-112 of `auction_scraper.py`).  Each field is the result of the
corresponding BeautifulSoup lookup: `none` when the element (or regex match)
is absent. -/
structure Catalogue where
  /-- stripped text of `p.pageCatDesc`, when that element exists -/
  dateText : Option String
  /-- four-digit year 2015-2025 matched by the regex inside `dateText` -/
  dateYear : Option String
  /-- digits of a preceding `a#year-N` anchor id -/
  anchorYear : Option String
  /-- year matched in preceding `h2`/`h3`/own text (fallback chain) -/
  contextYear : Option String
  /-- stripped text of the title element chain (`h3.pageCatTitle`, `h4`, `h2`) -/
  titleText : Option String
  /-- stripped text of the sale-total element, when present -/
  saleTotalText : Option String
  /-- `href` of the detail-page link, when a link is found -/
  href : Option String
  deriving DecidableEq

/- ---------------------------------------------------------------------
String helpers, all structurally recursive (kernel-evaluable).
--------------------------------------------------------------------- -/

/-- Does the string start with a slash (the only `startswith` test the core
performs, at the `urljoin` call sites)? -/
def startsWithSlash (s : String) : Bool :=
  match s.data with
  | [] => false
  | c :: _ => c == '/'

/-- Python `str.replace(",", "")`. -/
def stripCommasL : List Char → List Char
  | [] => []
  | c :: cs => if c == ',' then stripCommasL cs else c :: stripCommasL cs

def stripCommas (s : String) : String := ⟨stripCommasL s.data⟩

/-- Is `p` a leading segment of `l`? -/
def leadsWith : List Char → List Char → Bool
  | [], _ => true
  | _ :: _, [] => false
  | p :: ps, c :: cs => p == c && leadsWith ps cs

/-- Python `str.replace(pat, "")`: remove every (left-to-right,
non-overlapping) occurrence of `pat`.  The fuel argument (instantiated with
the length of the scanned list, which every step shortens) keeps the
recursion structural so the kernel can evaluate it. -/
def removeAllAux (pat : List Char) : Nat → List Char → List Char
  | 0, l => l
  | _, [] => []
  | fuel + 1, c :: cs =>
    if leadsWith pat (c :: cs) then removeAllAux pat fuel (List.drop (pat.length - 1) cs)
    else c :: removeAllAux pat fuel cs

def removeAll (pat : String) (s : String) : String :=
  ⟨removeAllAux pat.data s.data.length s.data⟩

/-- Python `int(s)` restricted to the digit strings that price spans produce:
`some` of the value when `s` is a non-empty all-digit string, `none` (a
`ValueError`) otherwise. -/
def pyIntDigits (s : String) : Option Nat :=
  if s.data ≠ [] ∧ s.data.all Char.isDigit then
    some (s.data.foldl (fun n c => n * 10 + (c.toNat - 48)) 0)
  else none

/-- Insert a comma every three digits, counting from the least significant:
the reversed digit list is grouped in threes. -/
def group3 : List Char → List Char
  | [] => []
  | [a] => [a]
  | [a, b] => [a, b]
  | [a, b, c] => [a, b, c]
  | a :: b :: c :: rest => a :: b :: c :: ',' :: group3 rest

/-- Python `f"${n:,}"`. -/
def formatPrice (n : Nat) : String :=
  "$" ++ ⟨(group3 (toString n).data.reverse).reverse⟩


/- ---------------------------------------------------------------------
Stable descending sort by year, modelling Python `list.sort(key=year,
reverse=True)` (Timsort is stable; any stable sort for the same key order
produces the same list, so insertion sort is an exact model).
--------------------------------------------------------------------- -/

/-- Relation under which the collection is sorted: a record may precede
another exactly when its year string is not smaller (descending order;
all retained year strings are four-digit, so the lexicographic string
order used by Python agrees with the numeric order). -/
def yearGE (a b : AuctionRecord) : Prop := ¬ a.year < b.year

instance : DecidableRel yearGE := fun a b =>
  decidable_of_iff (¬ a.year.toList < b.year.toList)
    (not_congr String.lt_iff_toList_lt).symm

instance : IsTotal AuctionRecord yearGE :=
  ⟨fun a b => by
    rcases le_total a.year b.year with h | h
    · exact Or.inr (not_lt.mpr h)
    · exact Or.inl (not_lt.mpr h)⟩

instance : IsTrans AuctionRecord yearGE :=
  ⟨fun a b c h1 h2 => not_lt.mpr (le_trans (not_lt.mp h2) (not_lt.mp h1))⟩

/-- Python `auctions.sort(key=lambda x: x["year"], reverse=True)`. -/
def pySortByYearDesc (l : List AuctionRecord) : List AuctionRecord :=
  List.insertionSort yearGE l

namespace Menzies

/-- The year strings accepted by the range filter:
`valid_years = {str(year) for year in range(2015, 2026)}`. -/
def validYears : List String :=
  ["2015", "2016", "2017", "2018", "2019", "2020",
   "2021", "2022", "2023", "2024", "2025"]

def menziesBase : String := "https://www.menziesartbrands.com"

/-- `urljoin("https://www.menziesartbrands.com", u)` as used by the code:
it is only applied after a `startswith("/")` test, where it prepends the
site root. -/
def menziesJoin (u : String) : String :=
  if startsWithSlash u then menziesBase ++ u else u

/-- Year resolution chain of lines 50-73: the regex over the date text,
then the `a#year-N` anchor, then the heading/own-text fallback; first hit
wins. -/
def resolveYear (c : Catalogue) : Option String :=
  match c.dateYear with
  | some y => some y
  | none =>
    match c.anchorYear with
    | some y => some y
    | none => c.contextYear

/-- Lines 89-93: the detail link href, empty string when there is no link,
root-relative hrefs joined against the site base. -/
def resolveAuctionUrl (c : Catalogue) : String :=
  let u := (c.href).getD ("")
  if startsWithSlash u then menziesBase ++ u else u

def saleTotalLabel : String := "Sale Total: "

/-- The record appended at lines 104-111 for a surviving candidate. -/
def mkRec (c : Catalogue) (y url : String) : AuctionRecord :=
  { url := url
    title := (c.titleText).getD ("No title found")
    year := y
    date :=
      match c.dateText with
      | some t => if t = "" then "No date found" else t
      | none => "No date found"
    sale_total :=
      match c.saleTotalText with
      | some t => removeAll saleTotalLabel t
      | none => "No sale total found"
    lots := [] }

/-- The `for catalogue in catalogue_divs` loop of lines 49-112: year filter,
URL resolution, empty-URL discard, known-identity discard, append. -/
def collectAuctions (existingUrls : List String) : List Catalogue → List AuctionRecord
  | [] => []
  | c :: cs =>
    match resolveYear c with
    | none => collectAuctions existingUrls cs
    | some y =>
      if y ∈ validYears then
        if resolveAuctionUrl c = "" then collectAuctions existingUrls cs
        else if resolveAuctionUrl c ∈ existingUrls then collectAuctions existingUrls cs
        else mkRec c y (resolveAuctionUrl c) :: collectAuctions existingUrls cs
      else collectAuctions existingUrls cs

/-- `scrape_past_auctions` (lines 28-120): `none` models a listing-page
fetch failure (and the exception path), which yields the empty sequence, as
does an empty catalogue list; otherwise the collected candidates sorted by
year descending. -/
def scrape_past_auctions (page : Option (List Catalogue))
    (existingUrls : List String) : List AuctionRecord :=
  match page with
  | none => []
  | some cats =>
    if cats.isEmpty then []
    else pySortByYearDesc (collectAuctions existingUrls cats)

end Menzies

/- ---------------------------------------------------------------------
Menzies detail stage (`scrape_lot_details`, lines 122-225, and
`scrape_auction_details`, lines 227-295).
--------------------------------------------------------------------- -/

/-- Extraction signals of the paragraph following the title paragraph
(`medium_size_p`): its stripped non-empty lines. -/
structure TitleP where
  /-- text of the `<i>` element inside the title paragraph, if present -/
  iText : Option String
  /-- stripped non-empty lines of the following paragraph, `none` when no
  such paragraph exists -/
  msLines : Option (List String)
  deriving DecidableEq

/-- The first paragraph of the description div and the chain hanging off
it via `find_next("p")`. -/
structure ArtistP where
  text : String
  titleP : Option TitleP
  deriving DecidableEq

/-- `div.pageLotDescriptionTxt` signals. `hammerRaw` is the stripped text
of the `span.price` inside the first `Result Hammer:` paragraph that has
one (the fallback price source, reachable only when this div exists). -/
structure LotDesc where
  artistP : Option ArtistP
  hammerRaw : Option String
  deriving DecidableEq

/-- One lot page.  `soldForRaw` is the stripped text of the first
`span.price` inside the first `Sold For:` paragraph of
`div.pageLotDetails` that has such a span; `none` also covers the details
div itself being absent (both cases leave `sold_price` unset). -/
structure LotPage where
  descDiv : Option LotDesc
  soldForRaw : Option String
  deriving DecidableEq

namespace Menzies

/-- Lines 166-185: parse the `Sold For` span (commas removed); a
`ValueError` leaves `sold_price` unset. -/
def soldForPrice (pg : LotPage) : Option String :=
  match pg.soldForRaw with
  | none => none
  | some t => (pyIntDigits (stripCommas t)).map formatPrice

/-- Lines 189-206: the `Result Hammer` fallback, only consulted when the
description div exists. -/
def hammerPrice (pg : LotPage) : Option String :=
  match pg.descDiv with
  | none => none
  | some dd =>
    match dd.hammerRaw with
    | none => none
    | some t => (pyIntDigits (stripCommas t)).map formatPrice

/-- `sold_price` after both attempts (lines 166-206). -/
def resolveSoldPrice (pg : LotPage) : Option String :=
  match soldForPrice pg with
  | some p => some p
  | none => hammerPrice pg

/-- `scrape_lot_details` (lines 122-225).  `env` is the page fetcher for
lot pages (`none` = fetch failure).  When the description div exists but
holds no paragraph, line 157 reads the unassigned `title_p` variable, the
resulting `NameError` is caught by the outer handler and the function
returns `None`; that path is the `artistP = none` branch below.  A lot
whose price cannot be resolved is dropped (`None`). -/
def scrape_lot_details (env : String → Option LotPage) (lotUrl : String) :
    Option MenziesLot :=
  let url := menziesJoin lotUrl
  match env url with
  | none => none
  | some pg =>
    match pg.descDiv with
    | some dd =>
      match dd.artistP with
      | none => none
      | some ap =>
        let title :=
          match ap.titleP with
          | some tp => (tp.iText).getD ("Unknown Title")
          | none => "Unknown Title"
        let medium :=
          match ap.titleP with
          | some tp =>
            match tp.msLines with
            | some ls => ls.headD ("Unknown Medium")
            | none => "Unknown Medium"
          | none => "Unknown Medium"
        let size :=
          match ap.titleP with
          | some tp =>
            match tp.msLines with
            | some ls => (ls.get? 1).getD ("Not specified")
            | none => "Not specified"
          | none => "Not specified"
        match resolveSoldPrice pg with
        | none => none
        | some p =>
          some { artist := ap.text, title := title, medium := medium,
                 size := size, price := p, url := url }
    | none =>
      match resolveSoldPrice pg with
      | none => none
      | some p =>
        some { artist := "Unknown Artist", title := "Unknown Title",
               medium := "Unknown Medium", size := "Not specified",
               price := p, url := url }

end Menzies

/-- One `div.pageListing` row of an auction-detail page: the href of its
`a.buTTon` lot link matching `/items/\d+`, when present (rows without such
a link contribute no fetch task, lines 256-262). -/
structure PageRow where
  lotHref : Option String
  deriving DecidableEq

/-- One fetched auction-detail page: its listing rows and whether a
next-page link for the following page number is present (line 282). -/
structure ListingPage where
  rows : List PageRow
  hasNext : Bool
  deriving DecidableEq

namespace Menzies

/-- The fetch tasks created for one page, in row-encounter order. -/
def pageTasks (p : ListingPage) : List String :=
  p.rows.filterMap (fun r => r.lotHref)

/-- Lines 253-277 for one page: fan out one `scrape_lot_details` task per
linked row, gather in submission order, keep the successes, stamp each
with the auction url. -/
def pageLots (env : String → Option LotPage) (base : String)
    (p : ListingPage) : List MenziesLot :=
  ((((pageTasks p).map (fun h => scrape_lot_details env (menziesJoin h))).filterMap id).map
    (fun l => { l with auctionUrl := base }))

/-- The pagination loop of lines 238-287 over the successive fetch results
of pages 1, 2, 3, ... (`none` or running past the supplied list = fetch
failure, which `break`s).  Returns the accumulated `all_lots` and the
number of fetch calls performed (page fetches plus lot-page fetches). -/
def fillPages (env : String → Option LotPage) (base : String) :
    List (Option ListingPage) → List MenziesLot × Nat
  | [] => ([], 1)
  | none :: _ => ([], 1)
  | some p :: rest =>
    if p.rows.isEmpty then ([], 1)
    else
      let lots := pageLots env base p
      if p.hasNext then
        let more := fillPages env base rest
        (lots ++ more.1, 1 + (pageTasks p).length + more.2)
      else (lots, 1 + (pageTasks p).length)

/-- `scrape_auction_details` (lines 227-295).  Returns the success flag,
the (possibly mutated) record, and the number of fetch calls performed.
The loop `break`s on any page-fetch failure and still assigns `all_lots`
and returns `True`; the `except` branch is unreachable for the modelled
behaviours, so the flag is always `True`. -/
def scrape_auction_details (env : String → Option LotPage)
    (pages : List (Option ListingPage)) (auction : AuctionRecord) :
    Bool × AuctionRecord × Nat :=
  if auction.lots.isEmpty then
    let r := fillPages env auction.url pages
    (true, { auction with lots := r.1 }, r.2)
  else (true, auction, 0)

end Menzies

/- ---------------------------------------------------------------------
Menzies resume store and orchestrator (`load_existing_data`, lines 13-26,
`save_progress`, lines 297-304, and `main`, lines 306-334).
--------------------------------------------------------------------- -/

/-- The state of the snapshot file when the run starts: absent, present
but unreadable or unparsable, or present with the stored collection. -/
inductive SnapshotState where
  | missing : SnapshotState
  | corrupt : SnapshotState
  | valid : List AuctionRecord → SnapshotState
  deriving DecidableEq

namespace Menzies

/-- `load_existing_data` (lines 13-26): the missing-file branch returns
`[]`, and any exception while reading or parsing is caught and also
returns `[]`; being a total function, the model never raises. -/
def load_existing_data : SnapshotState → List AuctionRecord
  | .missing => []
  | .corrupt => []
  | .valid d => d

/-- The record produced for one auction by its detail step (line 326).
`pagesEnv` maps an auction url to the successive detail-page fetch
results for that auction. -/
def detailFill (lotEnv : String → Option LotPage)
    (pagesEnv : String → List (Option ListingPage)) (a : AuctionRecord) :
    AuctionRecord :=
  (scrape_auction_details lotEnv (pagesEnv a.url) a).2.1

/-- The `for auction in new_auctions` loop of lines 324-332, returning the
list of snapshots passed to `save_progress`, one per processed auction
(the save happens after every auction, successful or not).  The in-memory
collection is the year-sorted combination of the loaded and the new
records (line 320-321); the detail step mutates the processed auction
object in place, and since it never changes the sort key, the saved
arrangement equals the sorted current collection, which is what `snap`
rebuilds here. -/
def runLoop (lotEnv : String → Option LotPage)
    (pagesEnv : String → List (Option ListingPage))
    (existing done : List AuctionRecord) :
    List AuctionRecord → List (List AuctionRecord)
  | [] => []
  | a :: rest =>
    let a2 := detailFill lotEnv pagesEnv a
    let snap := pySortByYearDesc (existing ++ (done ++ a2 :: rest))
    snap :: runLoop lotEnv pagesEnv existing (done ++ [a2]) rest

/-- The observable outcome of one `main` run. -/
structure RunResult where
  /-- the collection loaded from the snapshot file -/
  existing : List AuctionRecord
  /-- discovery output: exactly the auctions whose detail stage the loop
  attempts, in processing order -/
  newAuctions : List AuctionRecord
  /-- urls whose detail stage is attempted (the loop ranges over
  `new_auctions` only) -/
  processed : List String
  /-- the successive snapshots handed to `save_progress` -/
  saves : List (List AuctionRecord)
  deriving DecidableEq

/-- `main` (lines 306-334): load, derive the known-identity set, discover,
then process each new auction and checkpoint after each. -/
def mainRun (snap : SnapshotState) (listing : Option (List Catalogue))
    (lotEnv : String → Option LotPage)
    (pagesEnv : String → List (Option ListingPage)) : RunResult :=
  let existing := load_existing_data snap
  let existingUrls := existing.map (fun r => r.url)
  let newAuctions := scrape_past_auctions listing existingUrls
  { existing := existing
    newAuctions := newAuctions
    processed := newAuctions.map (fun r => r.url)
    saves := runLoop lotEnv pagesEnv existing [] newAuctions }

end Menzies

/- ---------------------------------------------------------------------
Deutscher and Hackett detail stage (`deutscherandhackett_scraper.py`,
`scrape_lot_details` lines 66-123 and `scrape_auction_details` lines
125-164), cited by C1 and C4.
--------------------------------------------------------------------- -/

/-- One D and H lot record; `auctionUrl` again defaults to the absent
key. -/
structure DhLot where
  artist : String
  title : String
  medium : String
  size : String
  signage : String
  provenance : String
  condition : String
  price : String
  url : String
  auctionUrl : String := ""
  deriving DecidableEq

/-- Extraction result of one D and H lot page, at the field-extractor
boundary of spec section 6: the descriptive fields already carry their
sentinel defaults, and `soldPrice` is the processed text of the
`field-price-sold` div (`None` when the div is absent; the empty string
can result from the text processing and is also treated as unsold). -/
structure DhLotPage where
  artist : String
  title : String
  medium : String
  size : String
  signage : String
  provenance : String
  condition : String
  soldPrice : Option String
  deriving DecidableEq

/-- One `div.views-row` of a D and H auction page: whether it carries a
`field-price-sold` div, and the lot link href when present. -/
structure DhRow where
  soldDiv : Bool
  lotHref : Option String
  deriving DecidableEq

/-- A fetched D and H auction page (a single page; no pagination). -/
structure DhPage where
  rows : List DhRow
  deriving DecidableEq

/-- A D and H auction record. -/
structure DhAuction where
  url : String
  title : String
  year : String
  location : String
  date : String
  sale_number : String
  lots : List DhLot
  deriving DecidableEq

namespace DH

def dhBase : String := "https://www.deutscherandhackett.com"

def dhJoin (u : String) : String :=
  if startsWithSlash u then dhBase ++ u else u

/-- `scrape_lot_details` (lines 66-123): fetch failure or an unsold lot
(no resolved, non-empty price text) yields `None`. -/
def scrape_lot_details (env : String → Option DhLotPage) (lotUrl : String) :
    Option DhLot :=
  let url := dhJoin lotUrl
  match env url with
  | none => none
  | some pg =>
    match pg.soldPrice with
    | none => none
    | some s =>
      if s = "" then none
      else
        some { artist := pg.artist, title := pg.title, medium := pg.medium,
               size := pg.size, signage := pg.signage,
               provenance := pg.provenance, condition := pg.condition,
               price := s, url := url }

/-- `scrape_auction_details` (lines 125-164): skip when lots are already
present; a fetch failure of the single auction page returns `False`
without touching the record; otherwise fan out one task per sold row with
a link, gather in submission order, keep the successes, stamp and
assign. -/
def scrape_auction_details (env : String → Option DhLotPage)
    (page : Option DhPage) (auction : DhAuction) : Bool × DhAuction :=
  if auction.lots.isEmpty then
    match page with
    | none => (false, auction)
    | some p =>
      let hrefs := p.rows.filterMap
        (fun r => if r.soldDiv then r.lotHref else none)
      let lots :=
        ((hrefs.map (scrape_lot_details env)).filterMap id).map
          (fun l => { l with auctionUrl := auction.url })
      (true, { auction with lots := lots })
  else (true, auction)

end DH

/-- Did the fetch of the first detail page succeed?  (Spec wording:
absence of a page-one total-fetch failure.) -/
def pageOneFetchOk (pages : List (Option ListingPage)) : Bool :=
  (pages.headD none).isSome

/-- The detail pages the pagination loop actually visits, written from the
spec wording: pages are consumed in order until a fetch failure, an empty
row list, or a missing next-page affordance. -/
def pagesVisited : List (Option ListingPage) → List ListingPage
  | [] => []
  | none :: _ => []
  | some p :: rest =>
    if p.rows.isEmpty then []
    else if p.hasNext then p :: pagesVisited rest else [p]

/-- The lots one visited page contributes, written from the spec wording:
one task per row in row-encounter (submission) order, failed or dropped
tasks removed, survivors stamped with the auction url. -/
def pageSuccessLots (env : String → Option LotPage) (base : String)
    (p : ListingPage) : List MenziesLot :=
  (p.rows.filterMap (fun row =>
    (row.lotHref).bind (fun h => Menzies.scrape_lot_details env (Menzies.menziesJoin h)))).map
    (fun l => { l with auctionUrl := base })

/- ---------------------------------------------------------------------
Concrete fixtures used by witnesses and counterexamples.
--------------------------------------------------------------------- -/

/-- A listing entry for a 2020 auction with a resolvable link. -/
def wCat : Catalogue :=
  { dateText := some ("26 March 2020"), dateYear := some ("2020"),
    anchorYear := none, contextYear := none,
    titleText := some ("Australian Art"), saleTotalText := none,
    href := some ("/catalogue-details/a1") }

/-- The record discovery builds from `wCat`. -/
def wA : AuctionRecord :=
  { url := "https://www.menziesartbrands.com/catalogue-details/a1",
    title := "Australian Art", year := "2020", date := "26 March 2020",
    sale_total := "No sale total found", lots := [] }

/-- A second listing entry, for a 2016 auction. -/
def wCat2 : Catalogue :=
  { dateText := some ("5 May 2016"), dateYear := some ("2016"),
    anchorYear := none, contextYear := none,
    titleText := some ("Winter Sale"), saleTotalText := none,
    href := some ("/catalogue-details/b2") }

def wK : List String := ["https://known.example/x"]

def wLotEnv : String → Option LotPage := fun _ => none

def wPagesEnv : String → List (Option ListingPage) := fun _ => []

def wDhAuction : DhAuction :=
  { url := "https://www.deutscherandhackett.com/1-sale", title := "Sale",
    year := "2016", location := "Sydney", date := "1 June 2016",
    sale_number := "1", lots := [] }

def wDhEnv : String → Option DhLotPage := fun _ => none

/-- An auction record with empty lots used as detail-stage input. -/
def cexAuction : AuctionRecord :=
  { url := "https://www.menziesartbrands.com/catalogue-details/cex",
    title := "Cex Sale", year := "2018", date := "1 July 2018",
    sale_total := "No sale total found", lots := [] }

def wLot : MenziesLot :=
  { artist := "Arthur Boyd", title := "River", medium := "oil",
    size := "50 x 60 cm", price := "$1,200",
    url := "https://www.menziesartbrands.com/items/9",
    auctionUrl := "https://www.menziesartbrands.com/catalogue-details/cex" }

def wFullAuction : AuctionRecord := { cexAuction with lots := [wLot] }

/- C4 fixtures: five lot tasks across two pages, the third one failing. -/

def c4Page1 : ListingPage :=
  { rows := [{ lotHref := some ("/items/1") }, { lotHref := some ("/items/2") },
             { lotHref := some ("/items/3") }],
    hasNext := true }

def c4Page2 : ListingPage :=
  { rows := [{ lotHref := some ("/items/4") }, { lotHref := some ("/items/5") }],
    hasNext := false }

def c4Pages : List (Option ListingPage) := [some c4Page1, some c4Page2]

/-- A lot page whose description div is missing and whose sold-for span
reads a parseable price. -/
def c4LotPg : LotPage := { descDiv := none, soldForRaw := some ("1,200") }

/-- The lot-page fetcher: the third task's fetch fails, the other four
succeed. -/
def c4Env : String → Option LotPage := fun u =>
  if u = "https://www.menziesartbrands.com/items/3" then none
  else if u = "https://www.menziesartbrands.com/items/1" then some c4LotPg
  else if u = "https://www.menziesartbrands.com/items/2" then some c4LotPg
  else if u = "https://www.menziesartbrands.com/items/4" then some c4LotPg
  else if u = "https://www.menziesartbrands.com/items/5" then some c4LotPg
  else none

def c4Auction : AuctionRecord :=
  { url := "https://www.menziesartbrands.com/catalogue-details/c4",
    title := "C4 Sale", year := "2019", date := "2 August 2019",
    sale_total := "No sale total found", lots := [] }

def c4Lot (tail : String) : MenziesLot :=
  { artist := "Unknown Artist", title := "Unknown Title",
    medium := "Unknown Medium", size := "Not specified", price := "$1,200",
    url := "https://www.menziesartbrands.com/items/" ++ tail,
    auctionUrl := c4Auction.url }

example : formatPrice 1200 = "$1,200" := by decide
example : formatPrice 123456 = "$123,456" := by decide
example : formatPrice 7 = "$7" := by decide

example : removeAll ("ab") ("xaby") = "xy" := by decide

/- ---------------------------------------------------------------------
Sorting lemmas: permutation, sortedness, and stability (the filter of the
sorted list at any fixed year equals the filter of the input, i.e. the
secondary order is the input order).
--------------------------------------------------------------------- -/

lemma pySort_perm (l : List AuctionRecord) : List.Perm (pySortByYearDesc l) l :=
  List.perm_insertionSort yearGE l

lemma pySort_sorted (l : List AuctionRecord) :
    List.Sorted yearGE (pySortByYearDesc l) :=
  List.sorted_insertionSort yearGE l

lemma filter_year_orderedInsert (y : String) (x : AuctionRecord) :
    ∀ l : List AuctionRecord,
      (List.orderedInsert yearGE x l).filter (fun r => decide (r.year = y))
        = (if x.year = y then [x] else [])
            ++ l.filter (fun r => decide (r.year = y)) := by
  intro l
  induction l with
  | nil => by_cases hxy : x.year = y <;> simp [List.orderedInsert, hxy]
  | cons b l ih =>
    by_cases hb : yearGE x b
    · by_cases hxy : x.year = y <;>
        simp [List.orderedInsert, hb, List.filter_cons, hxy]
    · have hlt : x.year < b.year := by
        unfold yearGE at hb
        exact not_not.mp hb
      simp only [List.orderedInsert, if_neg hb, List.filter_cons, ih]
      by_cases hxy : x.year = y
      · have hby : ¬ (b.year = y) := by
          intro hby
          rw [hxy, ← hby] at hlt
          exact lt_irrefl _ hlt
        simp [hxy, hby]
      · by_cases hby : b.year = y <;> simp [hxy, hby]

lemma filter_year_pySort (y : String) :
    ∀ l : List AuctionRecord,
      (pySortByYearDesc l).filter (fun r => decide (r.year = y))
        = l.filter (fun r => decide (r.year = y)) := by
  intro l
  induction l with
  | nil => rfl
  | cons a l ih =>
    simp only [pySortByYearDesc, List.insertionSort] at ih ⊢
    rw [filter_year_orderedInsert, ih]
    by_cases h : a.year = y <;> simp [List.filter_cons, h]

/- ---------------------------------------------------------------------
Discovery lemmas.
--------------------------------------------------------------------- -/

lemma mem_collectAuctions {K : List String} {r : AuctionRecord} :
    ∀ {cs : List Catalogue}, r ∈ Menzies.collectAuctions K cs →
      r.year ∈ Menzies.validYears ∧ r.url ≠ "" ∧ r.url ∉ K ∧ r.lots = [] := by
  intro cs
  induction cs with
  | nil => intro h; exact absurd h (List.not_mem_nil r)
  | cons c cs ih =>
    intro h
    rcases hy : Menzies.resolveYear c with _ | y
    · simp only [Menzies.collectAuctions, hy] at h
      exact ih h
    · by_cases hvy : y ∈ Menzies.validYears
      · by_cases hu0 : Menzies.resolveAuctionUrl c = ""
        · simp only [Menzies.collectAuctions, hy, hvy, hu0, if_true] at h
          exact ih h
        · by_cases hK : Menzies.resolveAuctionUrl c ∈ K
          · simp only [Menzies.collectAuctions, hy, hvy, hu0, hK,
              if_true, if_false] at h
            exact ih h
          · simp only [Menzies.collectAuctions, hy, hvy, hu0, hK,
              if_true, if_false] at h
            rcases List.mem_cons.mp h with hr | hr
            · subst hr; exact ⟨hvy, hu0, hK, rfl⟩
            · exact ih hr
      · simp only [Menzies.collectAuctions, hy, hvy, if_false] at h
        exact ih h

lemma mem_scrape_past {page : Option (List Catalogue)} {K : List String}
    {r : AuctionRecord} (h : r ∈ Menzies.scrape_past_auctions page K) :
    r.year ∈ Menzies.validYears ∧ r.url ≠ "" ∧ r.url ∉ K ∧ r.lots = [] := by
  cases page with
  | none => exact absurd h (List.not_mem_nil r)
  | some cats =>
    by_cases hc : cats.isEmpty
    · simp only [Menzies.scrape_past_auctions, hc, if_true] at h
      exact absurd h (List.not_mem_nil r)
    · simp only [Menzies.scrape_past_auctions, hc, if_false] at h
      exact mem_collectAuctions ((pySort_perm _).mem_iff.mp h)

lemma validYears_num {y : String} (h : y ∈ Menzies.validYears) :
    ∃ n : Nat, 2015 ≤ n ∧ n ≤ 2025 ∧ y = toString n := by
  simp only [Menzies.validYears, List.mem_cons, List.not_mem_nil, or_false] at h
  rcases h with h|h|h|h|h|h|h|h|h|h|h <;> subst h
  · exact ⟨2015, by decide⟩
  · exact ⟨2016, by decide⟩
  · exact ⟨2017, by decide⟩
  · exact ⟨2018, by decide⟩
  · exact ⟨2019, by decide⟩
  · exact ⟨2020, by decide⟩
  · exact ⟨2021, by decide⟩
  · exact ⟨2022, by decide⟩
  · exact ⟨2023, by decide⟩
  · exact ⟨2024, by decide⟩
  · exact ⟨2025, by decide⟩

lemma collect_nil {K K2 : List String} :
    ∀ {cs : List Catalogue},
      (∀ u, u ∈ (Menzies.collectAuctions K cs).map (fun r => r.url) → u ∈ K2) →
      (∀ u, u ∈ K → u ∈ K2) →
      Menzies.collectAuctions K2 cs = [] := by
  intro cs
  induction cs with
  | nil => intro _ _; rfl
  | cons c cs ih =>
    intro h1 h2
    rcases hy : Menzies.resolveYear c with _ | y
    · simp only [Menzies.collectAuctions, hy] at h1 ⊢
      exact ih h1 h2
    · by_cases hvy : y ∈ Menzies.validYears
      · by_cases hu0 : Menzies.resolveAuctionUrl c = ""
        · simp only [Menzies.collectAuctions, hy, hvy, hu0, if_true,
            eq_self_iff_true] at h1 ⊢
          exact ih h1 h2
        · have hK2 : Menzies.resolveAuctionUrl c ∈ K2 := by
            by_cases hK : Menzies.resolveAuctionUrl c ∈ K
            · exact h2 _ hK
            · simp only [Menzies.collectAuctions, hy, hvy, hu0, hK, if_true,
                if_false] at h1
              exact h1 _ (by simp [Menzies.mkRec])
          simp only [Menzies.collectAuctions, hy, hvy, hu0, hK2, if_true,
            if_false] at h1 ⊢
          by_cases hK : Menzies.resolveAuctionUrl c ∈ K
          · simp only [hK, if_true] at h1
            exact ih h1 h2
          · simp only [hK, if_false] at h1
            exact ih (fun u hu => h1 u (by simp at hu ⊢; exact Or.inr hu)) h2
      · simp only [Menzies.collectAuctions, hy, hvy, if_false] at h1 ⊢
        exact ih h1 h2

/-- C3: for every known-identity set `K` and listing, discovery never
emits a record whose url is in `K`, and re-running discovery over the same
listing with the first output's identities added to `K` yields the empty
result. -/
theorem claim_C3 : ∀ (page : Option (List Catalogue)) (K : List String),
    (∀ r ∈ Menzies.scrape_past_auctions page K, r.url ∉ K)
  ∧ Menzies.scrape_past_auctions page
      ((Menzies.scrape_past_auctions page K).map (fun r => r.url) ++ K) = [] := by
  intro page K
  refine ⟨fun r hr => (mem_scrape_past hr).2.2.1, ?_⟩
  cases page with
  | none => rfl
  | some cats =>
    by_cases hc : cats.isEmpty
    · simp only [Menzies.scrape_past_auctions, hc, if_true]
    · have hnil : Menzies.collectAuctions
          (((pySortByYearDesc (Menzies.collectAuctions K cats)).map (fun r => r.url)) ++ K)
          cats = [] := by
        refine collect_nil (K := K) (fun u hu => ?_) (fun u hu => List.mem_append_right _ hu)
        refine List.mem_append_left _ ?_
        exact (List.Perm.mem_iff ((pySort_perm _).map (fun r => r.url))).mpr hu
      simp only [Menzies.scrape_past_auctions, hc, Bool.false_eq_true, if_false]
      rw [hnil]
      rfl

/-- C8: every discovered record carries a year inside the inclusive range
2015-2025, a non-empty detail-page url, and an empty lots sequence; the
output is sorted descending by year, and for each fixed year the order of
records equals their document (collection) order, i.e. the sort is stable
with discovery order as the secondary key. -/
theorem claim_C8 : ∀ (page : Option (List Catalogue)) (K : List String),
    (∀ r ∈ Menzies.scrape_past_auctions page K,
        (∃ n : Nat, 2015 ≤ n ∧ n ≤ 2025 ∧ r.year = toString n)
        ∧ r.url ≠ "" ∧ r.lots = [])
  ∧ List.Sorted yearGE (Menzies.scrape_past_auctions page K)
  ∧ (∀ cats : List Catalogue, page = some cats → ∀ y : String,
      (Menzies.scrape_past_auctions page K).filter (fun r => decide (r.year = y))
        = (Menzies.collectAuctions K cats).filter (fun r => decide (r.year = y))) := by
  intro page K
  refine ⟨?_, ?_, ?_⟩
  · intro r hr
    obtain ⟨hy, hurl, _, hlots⟩ := mem_scrape_past hr
    exact ⟨validYears_num hy, hurl, hlots⟩
  · cases page with
    | none => exact List.sorted_nil
    | some cats =>
      by_cases hc : cats.isEmpty
      · simp only [Menzies.scrape_past_auctions, hc, if_true]
        exact List.sorted_nil
      · simp only [Menzies.scrape_past_auctions, hc, Bool.false_eq_true, if_false]
        exact pySort_sorted _
  · intro cats hcats y
    subst hcats
    by_cases hc : cats.isEmpty
    · have : cats = [] := List.isEmpty_iff.mp hc
      subst this
      simp [Menzies.scrape_past_auctions, Menzies.collectAuctions]
    · simp only [Menzies.scrape_past_auctions, hc, Bool.false_eq_true, if_false]
      exact filter_year_pySort y _

/-- C9: the resume-store load returns the empty collection both when no
snapshot file exists and when the snapshot cannot be read or parsed (the
exception is caught); as a total function it never raises to the
caller. -/
theorem claim_C9 :
    Menzies.load_existing_data .missing = []
    ∧ Menzies.load_existing_data .corrupt = [] :=
  ⟨rfl, rfl⟩


/-- Witness for C3 at a concrete listing and known set. -/
theorem claim_C3_witness :
    ((Menzies.scrape_past_auctions (some [wCat]) wK).headD wA).url ∉ wK
    ∧ Menzies.scrape_past_auctions (some [wCat])
        ((Menzies.scrape_past_auctions (some [wCat]) wK).map (fun r => r.url) ++ wK) = [] :=
  ⟨(claim_C3 (some [wCat]) wK).1 _ (by decide), (claim_C3 (some [wCat]) wK).2⟩

/-- Witness for C8 at a concrete listing. -/
theorem claim_C8_witness :
    ((∃ n : Nat, 2015 ≤ n ∧ n ≤ 2025 ∧ wA.year = toString n)
      ∧ wA.url ≠ "" ∧ wA.lots = [])
    ∧ List.Sorted yearGE (Menzies.scrape_past_auctions (some [wCat]) [])
    ∧ (Menzies.scrape_past_auctions (some [wCat]) []).filter
        (fun r => decide (r.year = "2020"))
      = (Menzies.collectAuctions [] [wCat]).filter
          (fun r => decide (r.year = "2020")) :=
  ⟨(claim_C8 (some [wCat]) []).1 wA (by decide),
   (claim_C8 (some [wCat]) []).2.1,
   (claim_C8 (some [wCat]) []).2.2 [wCat] rfl ("2020")⟩

/- ---------------------------------------------------------------------
Detail-stage lemmas and claims.
--------------------------------------------------------------------- -/


lemma pageLots_eq (env : String → Option LotPage) (base : String)
    (p : ListingPage) :
    Menzies.pageLots env base p = pageSuccessLots env base p := by
  unfold Menzies.pageLots Menzies.pageTasks pageSuccessLots
  rw [List.filterMap_map, List.filterMap_filterMap]
  simp [Function.comp]

lemma fillPages_fst (env : String → Option LotPage) (base : String) :
    ∀ pages : List (Option ListingPage),
      (Menzies.fillPages env base pages).1
        = (pagesVisited pages).flatMap (pageSuccessLots env base) := by
  intro pages
  induction pages with
  | nil => rfl
  | cons o rest ih =>
    cases o with
    | none => rfl
    | some p =>
      by_cases hre : p.rows.isEmpty
      · simp [Menzies.fillPages, pagesVisited, hre]
      · by_cases hn : p.hasNext
        · simp only [Menzies.fillPages, pagesVisited, hre, hn,
            Bool.false_eq_true, if_false, if_true, List.flatMap_cons]
          rw [pageLots_eq, ih]
        · simp only [Menzies.fillPages, pagesVisited, hre, hn,
            Bool.false_eq_true, if_false, List.flatMap_cons, List.flatMap_nil,
            List.append_nil]
          exact pageLots_eq env base p

lemma lots_isEmpty_true {a : AuctionRecord} (h : a.lots = []) :
    a.lots.isEmpty = true := by simp [h]

lemma lots_isEmpty_false {a : AuctionRecord} (h : a.lots ≠ []) :
    a.lots.isEmpty = false := by
  cases hl : a.lots with
  | nil => exact absurd hl h
  | cons x xs => rfl


/-- C1 counterexample: with an empty-lots record and a page-one fetch
failure, the Menzies stage still returns success, refuting the claimed
equivalence between success and the absence of a page-one total-fetch
failure (the fetch failure merely breaks the loop; the catch-all `except`
is the only `False` path). -/
theorem claim_C1_counterexample :
    ¬ ((((Menzies.scrape_auction_details wLotEnv [none] cexAuction).1 = true)
          ↔ pageOneFetchOk [none] = true)
       ∧ (¬ pageOneFetchOk [none] = true →
            (Menzies.scrape_auction_details wLotEnv [none] cexAuction).2.1.lots = [])) := by
  decide

/-- C1 (amended): on an empty-lots record the Menzies stage returns
success unconditionally — in particular also on a page-one total-fetch
failure, where it assigns the empty lots sequence — while the D and H
stage returns success exactly when its single page fetch succeeds and
leaves the record untouched (lots still empty) on failure. -/
theorem claim_C1 :
    (∀ (env : String → Option LotPage) (pages : List (Option ListingPage))
        (a : AuctionRecord), a.lots = [] →
        (Menzies.scrape_auction_details env pages a).1 = true)
  ∧ (∀ (env : String → Option LotPage) (pages : List (Option ListingPage))
        (a : AuctionRecord), a.lots = [] → pageOneFetchOk pages = false →
        (Menzies.scrape_auction_details env pages a).2.1.lots = [])
  ∧ (∀ (env : String → Option DhLotPage) (page : Option DhPage)
        (a : DhAuction), a.lots = [] →
        (((DH.scrape_auction_details env page a).1 = true) ↔ page.isSome)
        ∧ (page = none → DH.scrape_auction_details env page a = (false, a))) := by
  refine ⟨?_, ?_, ?_⟩
  · intro env pages a ha
    simp [Menzies.scrape_auction_details, lots_isEmpty_true ha]
  · intro env pages a ha hfail
    simp only [Menzies.scrape_auction_details, lots_isEmpty_true ha, if_true]
    match pages with
    | [] => rfl
    | none :: _ => rfl
    | some p :: _ => simp [pageOneFetchOk] at hfail
  · intro env page a ha
    have ha' : a.lots.isEmpty = true := by simp [ha]
    cases page with
    | none => simp [DH.scrape_auction_details, ha']
    | some p => simp [DH.scrape_auction_details, ha']

/-- Witness for C1 at concrete inputs: page-one failure on the Menzies
side, fetch failure on the D and H side. -/
theorem claim_C1_witness :
    (Menzies.scrape_auction_details wLotEnv [none] cexAuction).1 = true
    ∧ (Menzies.scrape_auction_details wLotEnv [none] cexAuction).2.1.lots = []
    ∧ (((DH.scrape_auction_details wDhEnv none wDhAuction).1 = true)
        ↔ (none : Option DhPage).isSome) :=
  ⟨claim_C1.1 wLotEnv [none] cexAuction rfl,
   claim_C1.2.1 wLotEnv [none] cexAuction rfl rfl,
   (claim_C1.2.2 wDhEnv none wDhAuction rfl).1⟩

/-- C5: when the lots are already present the stage returns success at
once, performs zero fetch calls, and returns the record unchanged. -/
theorem claim_C5 : ∀ (env : String → Option LotPage)
    (pages : List (Option ListingPage)) (a : AuctionRecord), a.lots ≠ [] →
    Menzies.scrape_auction_details env pages a = (true, a, 0) := by
  intro env pages a ha
  simp [Menzies.scrape_auction_details, lots_isEmpty_false ha]


/-- Witness for C5: a record with one lot is returned untouched with zero
fetches. -/
theorem claim_C5_witness :
    Menzies.scrape_auction_details wLotEnv [none] wFullAuction
      = (true, wFullAuction, 0) :=
  claim_C5 wLotEnv [none] wFullAuction (by decide)


/-- C4: on an empty-lots record the stage succeeds and its merged output
is exactly the visited pages in page order, each contributing the
successes of its row tasks in submission (row-encounter) order — the
model of `asyncio.gather`, whose result order is its documented
submission order, independent of completion timing.  Instantiated on the
spec scenario: five tasks with the third failing yield exactly the four
surviving lots in order, and the stage still succeeds. -/
theorem claim_C4 :
    (∀ (env : String → Option LotPage) (pages : List (Option ListingPage))
        (a : AuctionRecord), a.lots = [] →
        (Menzies.scrape_auction_details env pages a).1 = true
        ∧ (Menzies.scrape_auction_details env pages a).2.1.lots
            = (pagesVisited pages).flatMap (pageSuccessLots env a.url))
  ∧ (Menzies.scrape_auction_details c4Env c4Pages c4Auction).1 = true
  ∧ (Menzies.scrape_auction_details c4Env c4Pages c4Auction).2.1.lots
      = [c4Lot ("1"), c4Lot ("2"), c4Lot ("4"), c4Lot ("5")] := by
  refine ⟨?_, by decide, by decide⟩
  intro env pages a ha
  constructor
  · simp [Menzies.scrape_auction_details, lots_isEmpty_true ha]
  · simp only [Menzies.scrape_auction_details, lots_isEmpty_true ha, if_true]
    exact fillPages_fst env a.url pages

/-- Witness for C4: the universally quantified conjunct applied to the
concrete five-task scenario. -/
theorem claim_C4_witness :
    (Menzies.scrape_auction_details c4Env c4Pages c4Auction).1 = true
    ∧ (Menzies.scrape_auction_details c4Env c4Pages c4Auction).2.1.lots
        = (pagesVisited c4Pages).flatMap (pageSuccessLots c4Env c4Auction.url) :=
  claim_C4.1 c4Env c4Pages c4Auction rfl

lemma resolveSoldPrice_formatted {pg : LotPage} {p : String}
    (h : Menzies.resolveSoldPrice pg = some p) :
    ∃ n : Nat, p = formatPrice n := by
  unfold Menzies.resolveSoldPrice at h
  rcases hsf : Menzies.soldForPrice pg with _ | q
  · rw [hsf] at h
    unfold Menzies.hammerPrice at h
    rcases hdd : pg.descDiv with _ | dd
    · simp only [hdd] at h
      exact Option.noConfusion h
    · simp only [hdd] at h
      rcases htr : dd.hammerRaw with _ | t
      · simp only [htr] at h
        exact Option.noConfusion h
      · simp only [htr] at h
        obtain ⟨n, _, hn⟩ := Option.map_eq_some'.mp h
        exact ⟨n, hn.symm⟩
  · rw [hsf] at h
    injection h with h
    subst h
    unfold Menzies.soldForPrice at hsf
    rcases htr : pg.soldForRaw with _ | t
    · simp only [htr] at hsf
      exact Option.noConfusion hsf
    · simp only [htr] at hsf
      obtain ⟨n, _, hn⟩ := Option.map_eq_some'.mp hsf
      exact ⟨n, hn.symm⟩

lemma scrape_lot_details_price {env : String → Option LotPage} {u : String}
    {l : MenziesLot} (h : Menzies.scrape_lot_details env u = some l) :
    ∃ n : Nat, l.price = formatPrice n := by
  unfold Menzies.scrape_lot_details at h
  rcases he : env (Menzies.menziesJoin u) with _ | pg
  · simp only [he] at h
    exact Option.noConfusion h
  · simp only [he] at h
    rcases hdd : pg.descDiv with _ | dd
    · simp only [hdd] at h
      rcases hsp : Menzies.resolveSoldPrice pg with _ | p
      · simp only [hsp] at h
        exact Option.noConfusion h
      · simp only [hsp] at h
        injection h with h
        subst h
        exact resolveSoldPrice_formatted hsp
    · simp only [hdd] at h
      rcases hap : dd.artistP with _ | ap
      · simp only [hap] at h
        exact Option.noConfusion h
      · simp only [hap] at h
        rcases hsp : Menzies.resolveSoldPrice pg with _ | p
        · simp only [hsp] at h
          exact Option.noConfusion h
        · simp only [hsp] at h
          injection h with h
          subst h
          exact resolveSoldPrice_formatted hsp

/-- C6: after the detail stage fills an empty-lots record, every recorded
lot carries a resolved price (the dollar-formatted parse of a price span;
candidates without one were dropped) and is stamped with the owning
auction's url. -/
theorem claim_C6 : ∀ (env : String → Option LotPage)
    (pages : List (Option ListingPage)) (a : AuctionRecord), a.lots = [] →
    ∀ l ∈ (Menzies.scrape_auction_details env pages a).2.1.lots,
      (∃ n : Nat, l.price = formatPrice n) ∧ l.auctionUrl = a.url := by
  intro env pages a ha l hl
  simp only [Menzies.scrape_auction_details, lots_isEmpty_true ha, if_true] at hl
  rw [fillPages_fst] at hl
  obtain ⟨p, hp, hlp⟩ := List.mem_flatMap.mp hl
  unfold pageSuccessLots at hlp
  obtain ⟨l0, hl0, rfl⟩ := List.mem_map.mp hlp
  obtain ⟨row, hrow, htask⟩ := List.mem_filterMap.mp hl0
  obtain ⟨h0, hh0, hsld⟩ := Option.bind_eq_some.mp htask
  have hp := scrape_lot_details_price hsld
  exact ⟨hp, rfl⟩

/-- Witness for C6: the first surviving lot of the C4 scenario has a
formatted resolved price and the owner's url. -/
theorem claim_C6_witness :
    (∃ n : Nat, (c4Lot ("1")).price = formatPrice n)
    ∧ (c4Lot ("1")).auctionUrl = c4Auction.url :=
  claim_C6 c4Env c4Pages c4Auction rfl (c4Lot ("1")) (by decide)

/- ---------------------------------------------------------------------
Orchestrator lemmas and claims.
--------------------------------------------------------------------- -/

lemma runLoop_length (L : String → Option LotPage)
    (P : String → List (Option ListingPage)) (ex : List AuctionRecord) :
    ∀ (pending done : List AuctionRecord),
      (Menzies.runLoop L P ex done pending).length = pending.length := by
  intro pending
  induction pending with
  | nil => intro done; rfl
  | cons a rest ih => intro done; simp [Menzies.runLoop, ih]

lemma runLoop_get? (L : String → Option LotPage)
    (P : String → List (Option ListingPage)) (ex : List AuctionRecord) :
    ∀ (pending done : List AuctionRecord) (k : Nat) (s : List AuctionRecord),
      (Menzies.runLoop L P ex done pending).get? k = some s →
      s = pySortByYearDesc (ex ++ (done ++
            ((pending.take (k+1)).map (Menzies.detailFill L P)
              ++ pending.drop (k+1)))) := by
  intro pending
  induction pending with
  | nil =>
    intro done k s h
    exact absurd h (by simp [Menzies.runLoop])
  | cons a rest ih =>
    intro done k s h
    cases k with
    | zero =>
      simp only [Menzies.runLoop, List.get?_cons_zero] at h
      injection h with h
      subst h
      simp
    | succ k =>
      simp only [Menzies.runLoop, List.get?_cons_succ] at h
      have hs := ih (done ++ [Menzies.detailFill L P a]) k s h
      rw [hs]
      congr 1
      simp

lemma runLoop_mem (L : String → Option LotPage)
    (P : String → List (Option ListingPage)) (ex : List AuctionRecord) :
    ∀ (pending done s : List AuctionRecord),
      s ∈ Menzies.runLoop L P ex done pending →
      ∃ mid, s = pySortByYearDesc (ex ++ mid) := by
  intro pending
  induction pending with
  | nil =>
    intro done s h
    exact absurd h (List.not_mem_nil s)
  | cons a rest ih =>
    intro done s h
    rcases List.mem_cons.mp h with hh | hh
    · exact ⟨done ++ Menzies.detailFill L P a :: rest, hh⟩
    · exact ih _ s hh

/-- C2 counterexample: an auction persisted with empty lots whose listing
entry is still present is not re-attempted on the next run — discovery
filters its url and the detail loop covers only newly discovered
auctions, so the run processes nothing. -/
theorem claim_C2_counterexample :
    Menzies.scrape_past_auctions (some [wCat]) [] = [wA]
    ∧ wA.lots = []
    ∧ (Menzies.mainRun (.valid [wA]) (some [wCat]) wLotEnv wPagesEnv).processed
        = [] := by
  decide

/-- C2 (amended): re-invoking the pipeline never re-attempts the detail
stage of any auction already persisted by a prior run — in particular not
of one with empty lots: its url is in the known-identity set, discovery
filters it out, and the detail loop iterates only over newly discovered
auctions.  A failed detail fill is therefore retried neither within nor
across runs. -/
theorem claim_C2 : ∀ (snap : SnapshotState) (listing : Option (List Catalogue))
    (lotEnv : String → Option LotPage)
    (pagesEnv : String → List (Option ListingPage)) (a : AuctionRecord),
    a ∈ Menzies.load_existing_data snap →
    a.url ∉ (Menzies.mainRun snap listing lotEnv pagesEnv).processed := by
  intro snap listing L P a ha hmem
  simp only [Menzies.mainRun] at hmem
  obtain ⟨r, hr, hru⟩ := List.mem_map.mp hmem
  have hnot := (mem_scrape_past hr).2.2.1
  apply hnot
  rw [hru]
  exact List.mem_map_of_mem (fun x => x.url) ha

/-- Witness for C2 (amended) at the counterexample scenario. -/
theorem claim_C2_witness :
    wA.url ∉ (Menzies.mainRun (.valid [wA]) (some [wCat]) wLotEnv wPagesEnv).processed :=
  claim_C2 (.valid [wA]) (some [wCat]) wLotEnv wPagesEnv wA (by decide)

/-- C7: the orchestrator saves once after every processed auction
(successful or not), and the k-th saved snapshot holds, up to the year
re-sort, exactly the loaded collection plus the first k+1 new auctions in
their post-detail state and the remaining new auctions untouched. -/
theorem claim_C7 : ∀ (snap : SnapshotState) (listing : Option (List Catalogue))
    (lotEnv : String → Option LotPage)
    (pagesEnv : String → List (Option ListingPage)),
    (Menzies.mainRun snap listing lotEnv pagesEnv).saves.length
      = (Menzies.mainRun snap listing lotEnv pagesEnv).newAuctions.length
  ∧ ∀ (k : Nat) (s : List AuctionRecord),
      (Menzies.mainRun snap listing lotEnv pagesEnv).saves.get? k = some s →
      List.Perm s
        ((Menzies.mainRun snap listing lotEnv pagesEnv).existing
          ++ ((((Menzies.mainRun snap listing lotEnv pagesEnv).newAuctions.take (k+1)).map
                (Menzies.detailFill lotEnv pagesEnv))
              ++ (Menzies.mainRun snap listing lotEnv pagesEnv).newAuctions.drop (k+1))) := by
  intro snap listing L P
  constructor
  · simp only [Menzies.mainRun]
    exact runLoop_length L P _ _ []
  · intro k s h
    simp only [Menzies.mainRun] at h ⊢
    have hs := runLoop_get? L P _ _ [] k s h
    simp only [List.nil_append] at hs
    rw [hs]
    exact pySort_perm _

/-- Witness for C7 on a one-auction run. -/
theorem claim_C7_witness :
    (Menzies.mainRun .missing (some [wCat]) wLotEnv wPagesEnv).saves.length
      = (Menzies.mainRun .missing (some [wCat]) wLotEnv wPagesEnv).newAuctions.length
    ∧ List.Perm
        ((Menzies.mainRun .missing (some [wCat]) wLotEnv wPagesEnv).saves.headD [])
        ((Menzies.mainRun .missing (some [wCat]) wLotEnv wPagesEnv).existing
          ++ ((((Menzies.mainRun .missing (some [wCat]) wLotEnv wPagesEnv).newAuctions.take 1).map
                (Menzies.detailFill wLotEnv wPagesEnv))
              ++ (Menzies.mainRun .missing (some [wCat]) wLotEnv wPagesEnv).newAuctions.drop 1)) :=
  ⟨(claim_C7 .missing (some [wCat]) wLotEnv wPagesEnv).1,
   (claim_C7 .missing (some [wCat]) wLotEnv wPagesEnv).2 0 _ (by decide)⟩

/-- C10: every record loaded from the prior snapshot appears, with all its
field values unchanged, in every snapshot saved during the run (the
combined collection is only re-ordered by the year sort; the loop mutates
only newly discovered auctions). -/
theorem claim_C10 : ∀ (snap : SnapshotState) (listing : Option (List Catalogue))
    (lotEnv : String → Option LotPage)
    (pagesEnv : String → List (Option ListingPage))
    (r : AuctionRecord) (s : List AuctionRecord),
    r ∈ Menzies.load_existing_data snap →
    s ∈ (Menzies.mainRun snap listing lotEnv pagesEnv).saves →
    r ∈ s := by
  intro snap listing L P r s hr hs
  simp only [Menzies.mainRun] at hs
  obtain ⟨mid, rfl⟩ := runLoop_mem L P _ _ [] s hs
  exact (List.Perm.mem_iff (pySort_perm _)).mpr (List.mem_append_left _ hr)

/-- Witness for C10: the loaded record survives the first save of a run
that discovers one new auction. -/
theorem claim_C10_witness :
    wA ∈ ((Menzies.mainRun (.valid [wA]) (some [wCat2]) wLotEnv wPagesEnv).saves.headD []) :=
  claim_C10 (.valid [wA]) (some [wCat2]) wLotEnv wPagesEnv wA
    ((Menzies.mainRun (.valid [wA]) (some [wCat2]) wLotEnv wPagesEnv).saves.headD [])
    (by decide) (by decide)
